import Mathlib

/-!
Verification of `execution/ai_things_considered.py`, the daily comic-strip
pipeline: story selection, prompt synthesis, panel generation with bounded
retry/backoff, fixed-grid composition, and archive/metadata bookkeeping.

Python strings are embedded as `List Char`, PIL images as an inductive `Img`
recording provenance (decoded bytes, resizes), drawing as a list of draw
operations on a canvas, exceptions as `Except`, and `None` as `Option.none`.
All sizes and counts are `Nat` (Python ints here are never negative except
the index `i - 1` in the selector, which is modelled on `Int`).
-/

set_option maxRecDepth 20000

namespace AIThingsConsidered

/-- `MAX_RETRIES = 3` (retry configuration). -/
def MAX_RETRIES : Nat := 3

/-- `RETRY_BASE_DELAY = 2` seconds. -/
def RETRY_BASE_DELAY : Nat := 2

/-- `NUM_PANELS = 6`. -/
def NUM_PANELS : Nat := 6

/-- `MIN_PANELS_REQUIRED = 4`: fail if fewer than this many panels succeed. -/
def MIN_PANELS_REQUIRED : Nat := 4

/-- `WEB_MAX_WIDTH = 1000`. -/
def WEB_MAX_WIDTH : Nat := 1000

/-- `WEB_QUALITY = 85`. -/
def WEB_QUALITY : Nat := 85

/-- The module-level style constant (`STYLE_PREFIX` in the source). -/
def stylePrefixText : List Char :=
  "Vintage comic panel illustration. Muted earth tone palette - cream, warm brown, dusty blue, sage green, faded ochre. Flat geometric shapes with clean precise linework. Diagrammatic, nostalgic mid-century newspaper illustration aesthetic. Hand-drawn feel with architectural precision.".data

/-! ### Python string primitives -/

/-- Python `str` whitespace for `str.strip` and the regex class `\s`
(ASCII fragment: space, tab, linefeed, carriage return, vertical tab,
form feed). -/
def isPyWs (c : Char) : Bool :=
  c = ' ' || c = '\t' || c = '\n' || c = '\x0d' || c = '\x0b' || c = '\x0c'

/-- Python `str.strip()`: remove leading and trailing whitespace. -/
def pyStrip (s : List Char) : List Char :=
  ((s.dropWhile isPyWs).reverse.dropWhile isPyWs).reverse

/-- Python `str.lower()` (ASCII fragment). -/
def pyLower (s : List Char) : List Char := s.map Char.toLower

/-- Python `s.startswith(pre)`. -/
def pyStartsWith : List Char → List Char → Bool
  | [], _ => true
  | _ :: _, [] => false
  | p :: ps, c :: cs => p == c && pyStartsWith ps cs

/-! ### Prompt Synthesizer (`generate_image_prompt`) -/

/-- `generate_image_prompt`, as a function of the text-generation response's
text field: strip surrounding whitespace; if the result does not begin
(lower-cased) with `"vintage"`, prepend the style constant followed by a
single space. -/
def generate_image_prompt (responseText : List Char) : List Char :=
  let image_prompt := pyStrip responseText
  if pyStartsWith "vintage".data (pyLower image_prompt) then
    image_prompt
  else
    stylePrefixText ++ " ".data ++ image_prompt

/-! ### Panel Generator (`generate_panel_image`) -/

/-- Inline binary image data carried by a response part (`part.inline_data`). -/
structure Blob where
  data : List Nat
deriving DecidableEq

/-- One content part of a candidate; `inline_data` is `None` for text parts. -/
structure Part where
  inline_data : Option Blob
deriving DecidableEq

/-- `candidate.content`. -/
structure Content where
  parts : List Part
deriving DecidableEq

/-- One candidate of an image-generation response. -/
structure Candidate where
  content : Content
deriving DecidableEq

/-- An image-generation response: zero or more candidates. -/
structure Response where
  candidates : List Candidate
deriving DecidableEq

/-- A PIL image, tracked by provenance: decoded from bytes
(`Image.open(BytesIO(b))`) or resized from another image. -/
inductive Img
  | decoded (bytes : List Nat)
  | resized (src : Img) (w h : Nat)
deriving DecidableEq

/-- The exceptions one attempt of `generate_panel_image` can raise (all are
caught by its `except` handler). -/
inductive GenErr
  | apiFailure
  | noCandidates
  | noImageData
deriving DecidableEq

/-- The `for part in response.candidates[0].content.parts` scan: first part
whose `inline_data` is truthy. -/
def scanParts : List Part → Option Blob
  | [] => none
  | p :: rest =>
    match p.inline_data with
    | some b => some b
    | none => scanParts rest

/-- The response handling of one attempt: raise if `not response.candidates`,
else return the image decoded from the first inline-data part of the first
candidate, or raise if there is none. -/
def attemptBody (response : Response) : Except GenErr Img :=
  match response.candidates with
  | [] => .error .noCandidates
  | c :: _ =>
    match scanParts c.content.parts with
    | some b => .ok (.decoded b.data)
    | none => .error .noImageData

/-- One whole attempt: the `generate_content` call (which may itself raise,
modelled by `call` returning `.error`) followed by response handling. -/
def attemptOutcome (call : Nat → Except Unit Response) (attempt : Nat) :
    Except GenErr Img :=
  match call attempt with
  | .error _ => .error .apiFailure
  | .ok response => attemptBody response

/-- Execution trace of `generate_panel_image`: the returned value, the
attempt numbers actually executed, and the `time.sleep` durations in order. -/
structure PanelGenTrace where
  result : Option Img
  attempts : List Nat
  sleeps : List Nat
deriving DecidableEq

/-- The `for attempt in range(1, MAX_RETRIES + 1)` loop over the remaining
attempt numbers: stop at the first successful attempt; on failure sleep
`RETRY_BASE_DELAY * 2 ^ (attempt - 1)` only when `attempt < MAX_RETRIES`. -/
def retryList (call : Nat → Except Unit Response) : List Nat → PanelGenTrace
  | [] => ⟨none, [], []⟩
  | a :: rest =>
    match attemptOutcome call a with
    | .ok img => ⟨some img, [a], []⟩
    | .error _ =>
      let r := retryList call rest
      if a < MAX_RETRIES then
        ⟨r.result, a :: r.attempts, RETRY_BASE_DELAY * 2 ^ (a - 1) :: r.sleeps⟩
      else
        ⟨r.result, a :: r.attempts, r.sleeps⟩

/-- `generate_panel_image` for a given per-attempt capability behavior:
runs attempts `1, ..., MAX_RETRIES`, returning the trace. The source returns
`None` after the loop when no attempt succeeded. -/
def generate_panel_image (call : Nat → Except Unit Response) : PanelGenTrace :=
  retryList call (List.range' 1 MAX_RETRIES)

/-! ### Compositor (`compose_comic_strip`) -/

/-- Layout constant `PANEL_WIDTH = 400`. -/
def PANEL_WIDTH : Nat := 400

/-- Layout constant `PANEL_HEIGHT = 600` (2:3 aspect ratio). -/
def PANEL_HEIGHT : Nat := 600

/-- Layout constant `COLS = 3`. -/
def COLS : Nat := 3

/-- Layout constant `ROWS = 2`. -/
def ROWS : Nat := 2

/-- Layout constant `GUTTER = 12`. -/
def GUTTER : Nat := 12

/-- Layout constant `BORDER = 3` (stroke width). -/
def BORDER : Nat := 3

/-- Layout constant `HEADER_HEIGHT = 100`. -/
def HEADER_HEIGHT : Nat := 100

/-- Layout constant `MARGIN = 30`. -/
def MARGIN : Nat := 30

/-- Background color (cream). -/
def BG_COLOR : Nat × Nat × Nat := (252, 249, 242)

/-- Border color (dark brown/black). -/
def BORDER_COLOR : Nat × Nat × Nat := (40, 35, 30)

/-- Text color. -/
def TEXT_COLOR : Nat × Nat × Nat := (40, 35, 30)

/-- One drawing operation performed on the strip canvas: `draw.text`,
`draw.rectangle` (corner coordinates as Python ints), or `strip.paste`. -/
inductive DrawOp
  | text (x y : Nat) (s : List Char) (fill : Nat × Nat × Nat)
  | rect (x0 y0 x1 y1 : Int) (outline : Nat × Nat × Nat) (width : Nat)
  | paste (img : Img) (x y : Nat)
deriving DecidableEq

/-- The `for i, panel in enumerate(panels)` placement loop, carrying the
running index: `None` slots are skipped (`continue`); a present panel is
resized to the cell size, its border rectangle drawn, and pasted at the
cell origin. -/
def placePanels (panels : List (Option Img)) (i : Nat) : List DrawOp :=
  match panels with
  | [] => []
  | none :: rest => placePanels rest (i + 1)
  | some panel :: rest =>
    let col := i % COLS
    let row := i / COLS
    let x := MARGIN + col * (PANEL_WIDTH + GUTTER)
    let y := MARGIN + HEADER_HEIGHT + row * (PANEL_HEIGHT + GUTTER)
    let panel_resized := Img.resized panel PANEL_WIDTH PANEL_HEIGHT
    DrawOp.rect ((x : Int) - BORDER) ((y : Int) - BORDER)
        ((x : Int) + PANEL_WIDTH + BORDER) ((y : Int) + PANEL_HEIGHT + BORDER)
        BORDER_COLOR BORDER
      :: DrawOp.paste panel_resized x y
      :: placePanels rest (i + 1)

/-- The composed strip: canvas dimensions, background fill, and the drawing
operations performed on it. -/
structure Strip where
  width : Nat
  height : Nat
  bg : Nat × Nat × Nat
  ops : List DrawOp
deriving DecidableEq

/-- `compose_comic_strip`: fixed-size canvas, title and date text
left-justified in the header, then the placement loop over the slots. -/
def compose_comic_strip (panels : List (Option Img)) (date_str : List Char) :
    Strip :=
  let strip_width := MARGIN * 2 + COLS * PANEL_WIDTH + (COLS - 1) * GUTTER
  let strip_height :=
    MARGIN * 2 + HEADER_HEIGHT + ROWS * PANEL_HEIGHT + (ROWS - 1) * GUTTER
  { width := strip_width
    height := strip_height
    bg := BG_COLOR
    ops := DrawOp.text MARGIN MARGIN "AI THINGS CONSIDERED".data TEXT_COLOR
        :: DrawOp.text MARGIN (MARGIN + 55) date_str TEXT_COLOR
        :: placePanels panels 0 }

/-- Horizontal cell origin of slot `i` (column `i % COLS`). -/
def cellX (i : Nat) : Nat := MARGIN + (i % COLS) * (PANEL_WIDTH + GUTTER)

/-- Vertical cell origin of slot `i` (row `i / COLS`). -/
def cellY (i : Nat) : Nat :=
  MARGIN + HEADER_HEIGHT + (i / COLS) * (PANEL_HEIGHT + GUTTER)

/-- The border rectangle the compositor would draw around slot `i`'s cell
bounds. -/
def slotBorder (i : Nat) : DrawOp :=
  .rect ((cellX i : Int) - BORDER) ((cellY i : Int) - BORDER)
    ((cellX i : Int) + PANEL_WIDTH + BORDER) ((cellY i : Int) + PANEL_HEIGHT + BORDER)
    BORDER_COLOR BORDER

/-! ### Archive (`update_archive`) -/

/-- One entry of `archive.json`: `{date, image}`. -/
structure ArchiveEntry where
  date : List Char
  image : List Char
deriving DecidableEq

/-- The archive document: `{comics: [...]}`. -/
structure Archive where
  comics : List ArchiveEntry
deriving DecidableEq

/-- `update_archive` on the loaded document: skip when an entry with this
date already exists, otherwise insert the new entry at the beginning
(newest first). -/
def update_archive (archive : Archive) (date_str : List Char) : Archive :=
  let new_entry : ArchiveEntry := ⟨date_str, date_str ++ ".jpg".data⟩
  let existing_dates := archive.comics.map (fun c => c.date)
  if date_str ∈ existing_dates then archive
  else ⟨new_entry :: archive.comics⟩

/-- Number of archive entries carrying a given date. -/
def countDate (archive : Archive) (date_str : List Char) : Nat :=
  archive.comics.countP (fun c => c.date == date_str)

/-! ### Selector (`select_stories`) -/

/-- One fetched story. -/
structure Story where
  title : List Char
  description : List Char
  link : List Char
  published : List Char
deriving DecidableEq

/-- Character class of the regex `[\d,\s]`. -/
def isArrChar (c : Char) : Bool := c.isDigit || c = ',' || isPyWs c

/-- `re.search(r'\[[\d,\s]+\]', text)`: the leftmost substring consisting of
`'['`, one or more digits/commas/whitespace characters, then `']'` (the
greedy run is forced, as the class excludes `']'`). -/
def findIntArray : List Char → Option (List Char)
  | [] => none
  | '[' :: rest =>
    let run := rest.takeWhile isArrChar
    if run ≠ [] ∧ (rest.drop run.length).head? = some ']' then
      some ('[' :: run ++ [']'])
    else
      findIntArray rest
  | _ :: rest => findIntArray rest

/-- JSON whitespace accepted by `json.loads`. -/
def isJsonWs (c : Char) : Bool := c = ' ' || c = '\t' || c = '\n' || c = '\x0d'

/-- Skip JSON whitespace. -/
def skipJsonWs (s : List Char) : List Char := s.dropWhile isJsonWs

/-- Value of a digit run. -/
def digitsVal : List Char → Nat → Nat
  | [], acc => acc
  | d :: ds, acc => digitsVal ds (acc * 10 + (d.toNat - '0'.toNat))

/-- Elements of a JSON array of non-negative integers, after the opening
bracket: number (no leading zero), then `,` and another element or the
closing `]` ending the document. Fuel bounds the recursion; each step
consumes at least one character, so fuel = input length suffices. -/
def parseArrayBody : Nat → List Char → Option (List Nat)
  | 0, _ => none
  | fuel + 1, s =>
    let s1 := skipJsonWs s
    let ds := s1.takeWhile Char.isDigit
    if ds = [] then none
    else if ds.head? = some '0' ∧ ds.length ≠ 1 then none
    else
      let n := digitsVal ds 0
      match skipJsonWs (s1.drop ds.length) with
      | ']' :: rest => if rest = [] then some [n] else none
      | ',' :: rest =>
        match parseArrayBody fuel rest with
        | some ns => some (n :: ns)
        | none => none
      | _ => none

/-- `json.loads` restricted to arrays of non-negative integers (the only
values the regex-matched substring can spell); `none` models the
`json.JSONDecodeError` raise. -/
def jsonLoadsNatArray (s : List Char) : Option (List Nat) :=
  match s with
  | '[' :: rest =>
    match skipJsonWs rest with
    | ']' :: rest2 => if rest2 = [] then some [] else none
    | _ => parseArrayBody rest.length rest
  | _ => none

/-- Exceptions `select_stories` can raise past its boundary. -/
inductive SelErr
  | jsonRaise
  | indexRaise
deriving DecidableEq

/-- Python list indexing `stories[i - 1]` for a parsed (non-negative) index
`i`: `i ≥ 1` selects 0-based position `i - 1`, raising `IndexError` past the
end; `i = 0` yields index `-1`, the last story (raising on an empty list). -/
def pyIndexPred (stories : List Story) (i : Nat) : Except SelErr Story :=
  if i = 0 then
    match stories.getLast? with
    | some s => .ok s
    | none => .error .indexRaise
  else
    match stories.get? (i - 1) with
    | some s => .ok s
    | none => .error .indexRaise

/-- The comprehension `[stories[i-1] for i in indices[:NUM_PANELS]]` with
Python's exception propagation. -/
def selectByIndices (stories : List Story) : List Nat → Except SelErr (List Story)
  | [] => .ok []
  | i :: rest =>
    match pyIndexPred stories i with
    | .error e => .error e
    | .ok s =>
      match selectByIndices stories rest with
      | .error e => .error e
      | .ok ss => .ok (s :: ss)

/-- `select_stories` as a function of the selector response's text: strip it,
search for the first integer-array substring; on no match fall back to the
first `NUM_PANELS` stories; on a match, `json.loads` it (raising on invalid
JSON) and index the stories by the first `NUM_PANELS` parsed indices. -/
def select_stories (stories : List Story) (responseText : List Char) :
    Except SelErr (List Story) :=
  let response_text := pyStrip responseText
  match findIntArray response_text with
  | some sub =>
    match jsonLoadsNatArray sub with
    | none => .error .jsonRaise
    | some indices => selectByIndices stories (indices.take NUM_PANELS)
  | none => .ok (stories.take NUM_PANELS)

/-! ### Metadata and the run gate (`save_metadata`, `main` steps 4–8) -/

/-- One story entry of the metadata document. -/
structure StoryMeta where
  panel : Nat
  title : List Char
  summary : List Char
  source_url : List Char
deriving DecidableEq

/-- The metadata document `{date, image, stories}`. -/
structure Metadata where
  date : List Char
  image : List Char
  stories : List StoryMeta
deriving DecidableEq

/-- The `enumerate(stories)` comprehension building metadata entries,
carrying the running 0-based index; `panel` is the 1-based position. -/
def storyEntries (i : Nat) : List Story → List StoryMeta
  | [] => []
  | s :: rest =>
    ⟨i + 1, s.title, s.description, s.link⟩ :: storyEntries (i + 1) rest

/-- The metadata document `save_metadata` builds and writes both to the
dated `{date}.json` file and to `latest.json`. -/
def save_metadata (stories : List Story) (date_str : List Char) : Metadata :=
  { date := date_str
    image := date_str ++ ".jpg".data
    stories := storyEntries 0 stories }

/-- `optimize_for_web`: downscale to the maximum width when strictly wider
(the float `ratio` rounding of `int(height * ratio)` approximated by `Nat`
floor division), keeping the draw operations. -/
def optimize_for_web (image : Strip) : Strip :=
  if WEB_MAX_WIDTH < image.width then
    { image with
      width := WEB_MAX_WIDTH
      height := image.height * WEB_MAX_WIDTH / image.width }
  else image

/-- The artifacts a run persists once past the minimum-success gate. The
`latest-1.jpg`/`latest-2.jpg` copies made by `update_latest_images` depend on
a directory glob and are outside this model. -/
structure RunArtifacts where
  fullres_png : List Char × Strip
  web_jpg : List Char × Strip
  dated_json : List Char × Metadata
  latest_json : Metadata
  archive : Archive
deriving DecidableEq

/-- Steps 5–8 of `main` after panel generation: count successful panels,
raise `RuntimeError` when below `MIN_PANELS_REQUIRED` (persisting nothing),
otherwise compose the strip and persist the dated artifacts, the latest
pointer, and the archive update. -/
def finalizeRun (panels : List (Option Img)) (selected_stories : List Story)
    (today today_display : List Char) (archive0 : Archive) :
    Except (List Char) RunArtifacts :=
  let successful_panels := (panels.filter (fun p => p.isSome)).length
  if successful_panels < MIN_PANELS_REQUIRED then
    .error ("Only ".data ++ (Nat.repr successful_panels).data ++ "/".data
      ++ (Nat.repr NUM_PANELS).data
      ++ " panels generated. Minimum required: ".data
      ++ (Nat.repr MIN_PANELS_REQUIRED).data ++ ". Aborting.".data)
  else
    let strip := compose_comic_strip panels today_display
    let web_strip := optimize_for_web strip
    let metadata := save_metadata selected_stories today
    .ok { fullres_png := (today ++ ".png".data, strip)
          web_jpg := (today ++ ".jpg".data, web_strip)
          dated_json := (today ++ ".json".data, metadata)
          latest_json := metadata
          archive := update_archive archive0 today }

theorem pyLower_append (a b : List Char) :
    pyLower (a ++ b) = pyLower a ++ pyLower b := by
  simp [pyLower]

theorem pyStartsWith_append (p l m : List Char)
    (h : pyStartsWith p l = true) : pyStartsWith p (l ++ m) = true := by
  induction p generalizing l with
  | nil => rfl
  | cons a ps ih =>
    cases l with
    | nil => simp [pyStartsWith] at h
    | cons c cs =>
      simp only [pyStartsWith, Bool.and_eq_true, beq_iff_eq] at h ⊢
      exact ⟨h.1, ih cs h.2⟩

/-- C3: the panel generator executes at most `MAX_RETRIES` attempts, numbered
consecutively from 1; there is one fewer sleep than attempts (never a sleep
after the final attempt); the `j`-th sleep (between attempts `j+1` and `j+2`)
lasts `RETRY_BASE_DELAY * 2 ^ j` seconds; and the first successful attempt's
image is returned immediately, with no further attempts. -/
theorem retry_backoff_policy (call : Nat → Except Unit Response) :
    (generate_panel_image call).attempts.length ≤ MAX_RETRIES ∧
    (generate_panel_image call).attempts
      = List.range' 1 (generate_panel_image call).attempts.length ∧
    (generate_panel_image call).sleeps.length + 1
      = (generate_panel_image call).attempts.length ∧
    (∀ j, j < (generate_panel_image call).sleeps.length →
      (generate_panel_image call).sleeps.getD j 0 = RETRY_BASE_DELAY * 2 ^ j) ∧
    (∀ k img, 1 ≤ k → k ≤ MAX_RETRIES → attemptOutcome call k = .ok img →
      (∀ j, 1 ≤ j → j < k → ∃ e, attemptOutcome call j = .error e) →
      (generate_panel_image call).result = some img ∧
      (generate_panel_image call).attempts.length = k) := by
  have hr : generate_panel_image call = retryList call [1, 2, 3] := rfl
  cases h1 : attemptOutcome call 1 with
  | ok i1 =>
    have ht : generate_panel_image call = ⟨some i1, [1], []⟩ := by
      rw [hr]; simp [retryList, h1]
    rw [ht]
    refine ⟨by norm_num [MAX_RETRIES], by norm_num, by norm_num,
      by intro j hj; simp at hj, ?_⟩
    intro k img hk1 hk3 hok hprev
    rcases Nat.lt_or_ge k 2 with hk | hk
    · have hke : k = 1 := by omega
      subst hke; rw [h1] at hok
      injection hok with h; subst h; exact ⟨rfl, rfl⟩
    · obtain ⟨e, he⟩ := hprev 1 le_rfl (by omega)
      rw [h1] at he; cases he
  | error e1 =>
    cases h2 : attemptOutcome call 2 with
    | ok i2 =>
      have ht : generate_panel_image call = ⟨some i2, [1, 2], [2]⟩ := by
        rw [hr]; simp [retryList, h1, h2, MAX_RETRIES, RETRY_BASE_DELAY]
      rw [ht]
      refine ⟨by norm_num [MAX_RETRIES], by norm_num [List.range'], by norm_num,
        by intro j hj; simp at hj; subst hj; rfl, ?_⟩
      intro k img hk1 hk3 hok hprev
      have hk2 : k = 1 ∨ k = 2 ∨ k = 3 := by
        rw [MAX_RETRIES] at hk3; omega
      rcases hk2 with hke | hke | hke <;> subst hke
      · rw [h1] at hok; cases hok
      · rw [h2] at hok
        injection hok with h; subst h; exact ⟨rfl, rfl⟩
      · obtain ⟨e, he⟩ := hprev 2 (by omega) (by omega)
        rw [h2] at he; cases he
    | error e2 =>
      cases h3 : attemptOutcome call 3 with
      | ok i3 =>
        have ht : generate_panel_image call = ⟨some i3, [1, 2, 3], [2, 4]⟩ := by
          rw [hr]; simp [retryList, h1, h2, h3, MAX_RETRIES, RETRY_BASE_DELAY]
        rw [ht]
        refine ⟨by norm_num [MAX_RETRIES], by norm_num [List.range'], by norm_num,
          by intro j hj; simp at hj; interval_cases j <;> rfl, ?_⟩
        intro k img hk1 hk3 hok hprev
        have hk2 : k = 1 ∨ k = 2 ∨ k = 3 := by
          rw [MAX_RETRIES] at hk3; omega
        rcases hk2 with hke | hke | hke <;> subst hke
        · rw [h1] at hok; cases hok
        · rw [h2] at hok; cases hok
        · rw [h3] at hok
          injection hok with h; subst h; exact ⟨rfl, rfl⟩
      | error e3 =>
        have ht : generate_panel_image call = ⟨none, [1, 2, 3], [2, 4]⟩ := by
          rw [hr]; simp [retryList, h1, h2, h3, MAX_RETRIES, RETRY_BASE_DELAY]
        rw [ht]
        refine ⟨by norm_num [MAX_RETRIES], by norm_num [List.range'], by norm_num,
          by intro j hj; simp at hj; interval_cases j <;> rfl, ?_⟩
        intro k img hk1 hk3 hok hprev
        have hk2 : k = 1 ∨ k = 2 ∨ k = 3 := by
          rw [MAX_RETRIES] at hk3; omega
        rcases hk2 with hke | hke | hke <;> subst hke
        · rw [h1] at hok; cases hok
        · rw [h2] at hok; cases hok
        · rw [h3] at hok; cases hok

/-- C3 witness: with the capability failing twice then succeeding, the
generator sleeps 2 s then 4 s, makes exactly 3 attempts, and returns the
third attempt's image. -/
theorem retry_backoff_policy_witness :
    (generate_panel_image (fun a =>
        if a = 3 then .ok ⟨[⟨⟨[⟨some ⟨[7]⟩⟩]⟩⟩]⟩ else .error ())).result
      = some (.decoded [7]) ∧
    (generate_panel_image (fun a =>
        if a = 3 then .ok ⟨[⟨⟨[⟨some ⟨[7]⟩⟩]⟩⟩]⟩ else .error ())).attempts.length = 3 ∧
    (generate_panel_image (fun a =>
        if a = 3 then .ok ⟨[⟨⟨[⟨some ⟨[7]⟩⟩]⟩⟩]⟩ else .error ())).sleeps = [2, 4] := by
  have h := retry_backoff_policy (fun a =>
    if a = 3 then .ok ⟨[⟨⟨[⟨some ⟨[7]⟩⟩]⟩⟩]⟩ else .error ())
  have h5 := h.2.2.2.2 3 (.decoded [7]) (by decide) (by decide) (by rfl)
    (by intro j h1 h3; interval_cases j
        · exact ⟨.apiFailure, rfl⟩
        · exact ⟨.apiFailure, rfl⟩)
  exact ⟨h5.1, h5.2, by decide⟩

/-- C5: the panel generator's result is the absent marker exactly when all
`MAX_RETRIES` attempts fail (every attempt's exception is caught, none
escapes), and in every case the result is either an image or the absent
marker. -/
theorem panel_generator_no_raise (call : Nat → Except Unit Response) :
    ((generate_panel_image call).result = none ↔
      (∃ e, attemptOutcome call 1 = .error e) ∧
      (∃ e, attemptOutcome call 2 = .error e) ∧
      (∃ e, attemptOutcome call 3 = .error e)) ∧
    ((generate_panel_image call).result = none ∨
      ∃ img, (generate_panel_image call).result = some img) := by
  have hr : generate_panel_image call = retryList call [1, 2, 3] := rfl
  cases h1 : attemptOutcome call 1 with
  | ok i1 =>
    have ht : generate_panel_image call = ⟨some i1, [1], []⟩ := by
      rw [hr]; simp [retryList, h1]
    rw [ht]
    exact ⟨by simp [h1], Or.inr ⟨i1, rfl⟩⟩
  | error e1 =>
    cases h2 : attemptOutcome call 2 with
    | ok i2 =>
      have ht : generate_panel_image call = ⟨some i2, [1, 2], [2]⟩ := by
        rw [hr]; simp [retryList, h1, h2, MAX_RETRIES, RETRY_BASE_DELAY]
      rw [ht]
      exact ⟨by simp [h2], Or.inr ⟨i2, rfl⟩⟩
    | error e2 =>
      cases h3 : attemptOutcome call 3 with
      | ok i3 =>
        have ht : generate_panel_image call = ⟨some i3, [1, 2, 3], [2, 4]⟩ := by
          rw [hr]; simp [retryList, h1, h2, h3, MAX_RETRIES, RETRY_BASE_DELAY]
        rw [ht]
        exact ⟨by simp [h3], Or.inr ⟨i3, rfl⟩⟩
      | error e3 =>
        have ht : generate_panel_image call = ⟨none, [1, 2, 3], [2, 4]⟩ := by
          rw [hr]; simp [retryList, h1, h2, h3, MAX_RETRIES, RETRY_BASE_DELAY]
        rw [ht]
        exact ⟨by simp [h1, h2, h3], Or.inl rfl⟩

/-- C5 witness: when every attempt raises, the generator returns the absent
marker rather than raising. -/
theorem panel_generator_no_raise_witness :
    (generate_panel_image (fun _ => .error ())).result = none :=
  (panel_generator_no_raise (fun _ => .error ())).1.mpr
    ⟨⟨.apiFailure, rfl⟩, ⟨.apiFailure, rfl⟩, ⟨.apiFailure, rfl⟩⟩

theorem scanParts_isSome_iff (ps : List Part) :
    (∃ b, scanParts ps = some b) ↔ ps.any (fun p => p.inline_data.isSome) = true := by
  induction ps with
  | nil => simp [scanParts]
  | cons p rest ih =>
    cases hp : p.inline_data with
    | none => simpa [scanParts, hp] using ih
    | some b => simp [scanParts, hp]

theorem scanParts_find (ps : List Part) (b : Blob) (h : scanParts ps = some b) :
    ∃ p, ps.find? (fun p => p.inline_data.isSome) = some p ∧
      p.inline_data = some b := by
  induction ps with
  | nil => simp [scanParts] at h
  | cons p rest ih =>
    cases hp : p.inline_data with
    | none =>
      rw [scanParts, hp] at h
      obtain ⟨q, hq1, hq2⟩ := ih h
      exact ⟨q, by simp [List.find?, hp, hq1], hq2⟩
    | some b' =>
      rw [scanParts, hp] at h
      injection h with h
      exact ⟨p, by simp [List.find?, hp], by rw [hp, h]⟩

/-- C9 (counterexample to the claim as stated): a response whose first
candidate has no inline image data fails the attempt even though a later
candidate does carry inline image data. -/
theorem attempt_ignores_later_candidates :
    (∃ c ∈ (Response.mk [⟨⟨[⟨none⟩]⟩⟩, ⟨⟨[⟨some ⟨[7]⟩⟩]⟩⟩]).candidates,
      c.content.parts.any (fun p => p.inline_data.isSome) = true) ∧
    attemptBody (Response.mk [⟨⟨[⟨none⟩]⟩⟩, ⟨⟨[⟨some ⟨[7]⟩⟩]⟩⟩])
      = .error .noImageData := by
  exact ⟨⟨⟨⟨[⟨some ⟨[7]⟩⟩]⟩⟩, by decide, by decide⟩, rfl⟩

/-- C9 (amended): an attempt succeeds iff the response has at least one
candidate and the FIRST candidate's content parts include inline binary
image data; the image returned is decoded from the first such part of that
first candidate. -/
theorem attempt_success_first_candidate (r : Response) :
    ((∃ img, attemptBody r = .ok img) ↔
      ∃ c, r.candidates.head? = some c ∧
        c.content.parts.any (fun p => p.inline_data.isSome) = true) ∧
    (∀ img, attemptBody r = .ok img →
      ∃ c p b, r.candidates.head? = some c ∧
        c.content.parts.find? (fun p => p.inline_data.isSome) = some p ∧
        p.inline_data = some b ∧ img = .decoded b.data) := by
  cases hc : r.candidates with
  | nil =>
    constructor
    · simp [attemptBody, hc]
    · intro img h
      simp only [attemptBody, hc] at h
      cases h
  | cons c cs =>
    constructor
    · constructor
      · rintro ⟨img, h⟩
        simp only [attemptBody, hc] at h
        cases hs : scanParts c.content.parts with
        | none => rw [hs] at h; cases h
        | some b =>
          exact ⟨c, rfl, (scanParts_isSome_iff c.content.parts).mp ⟨b, hs⟩⟩
      · rintro ⟨c', hc', hany⟩
        injection hc' with hc'; subst hc'
        obtain ⟨b, hb⟩ := (scanParts_isSome_iff c.content.parts).mpr hany
        exact ⟨.decoded b.data, by simp [attemptBody, hc, hb]⟩
    · intro img h
      simp only [attemptBody, hc] at h
      cases hs : scanParts c.content.parts with
      | none => rw [hs] at h; cases h
      | some b =>
        rw [hs] at h
        injection h with h
        obtain ⟨p, hp1, hp2⟩ := scanParts_find c.content.parts b hs
        exact ⟨c, p, b, rfl, hp1, hp2, h.symm⟩

/-- C9 witness (for the amended theorem): a single-candidate response whose
second part carries inline data succeeds with that part's image. -/
theorem attempt_success_first_candidate_witness :
    (∃ img, attemptBody (Response.mk [⟨⟨[⟨none⟩, ⟨some ⟨[5]⟩⟩]⟩⟩]) = .ok img) ∧
    ∃ c p b,
      (Response.mk [⟨⟨[⟨none⟩, ⟨some ⟨[5]⟩⟩]⟩⟩]).candidates.head? = some c ∧
      c.content.parts.find? (fun p => p.inline_data.isSome) = some p ∧
      p.inline_data = some b ∧ Img.decoded [5] = Img.decoded b.data := by
  have h := attempt_success_first_candidate (Response.mk [⟨⟨[⟨none⟩, ⟨some ⟨[5]⟩⟩]⟩⟩])
  refine ⟨h.1.mpr ⟨⟨⟨[⟨none⟩, ⟨some ⟨[5]⟩⟩]⟩⟩, rfl, by decide⟩, h.2 (.decoded [5]) rfl⟩

/-- C8: the returned instruction is the trimmed response when that already
begins (case-insensitively) with the style keyword, and otherwise the style
constant prepended (with a single separating space) to the trimmed response;
in either case the result begins case-insensitively with `"vintage"`. -/
theorem prompt_style_keyword (t : List Char) :
    (pyStartsWith "vintage".data (pyLower (pyStrip t)) = true →
      generate_image_prompt t = pyStrip t) ∧
    (pyStartsWith "vintage".data (pyLower (pyStrip t)) = false →
      generate_image_prompt t = stylePrefixText ++ " ".data ++ pyStrip t) ∧
    pyStartsWith "vintage".data (pyLower (generate_image_prompt t)) = true := by
  refine ⟨fun h => by simp [generate_image_prompt, h], fun h => by simp [generate_image_prompt, h], ?_⟩
  by_cases h : pyStartsWith "vintage".data (pyLower (pyStrip t)) = true
  · simp [generate_image_prompt, h]
  · have h' : pyStartsWith "vintage".data (pyLower (pyStrip t)) = false := by
      simpa using h
    have hpre : pyStartsWith "vintage".data (pyLower stylePrefixText) = true := by decide
    rw [generate_image_prompt]
    simp only [h', if_false, Bool.false_eq_true]
    rw [List.append_assoc, pyLower_append]
    exact pyStartsWith_append _ _ _ hpre

/-- C8 witness: a response not already styled gets the style constant
prepended and the result starts with the keyword. -/
theorem prompt_style_keyword_witness :
    generate_image_prompt "  A lone microphone on a desk.  ".data
      = stylePrefixText ++ " ".data ++ "A lone microphone on a desk.".data ∧
    pyStartsWith "vintage".data
      (pyLower (generate_image_prompt "  A lone microphone on a desk.  ".data)) = true := by
  have h := prompt_style_keyword "  A lone microphone on a desk.  ".data
  refine ⟨?_, h.2.2⟩
  have := h.2.1 (by decide)
  rw [this]
  decide

theorem slotBorder_inj {i j : Nat} (h : slotBorder i = slotBorder j) :
    i = j := by
  simp only [slotBorder, cellX, cellY, MARGIN, HEADER_HEIGHT, PANEL_WIDTH,
    PANEL_HEIGHT, GUTTER, COLS, BORDER, DrawOp.rect.injEq] at h
  obtain ⟨hx, hy, -⟩ := h
  omega

theorem slotBorder_mem_placePanels (panels : List (Option Img)) (start k : Nat) :
    slotBorder k ∈ placePanels panels start ↔
      ∃ j p, panels.get? j = some (some p) ∧ k = start + j := by
  induction panels generalizing start with
  | nil =>
    simp [placePanels]
  | cons hd rest ih =>
    cases hd with
    | none =>
      rw [placePanels, ih (start + 1)]
      constructor
      · rintro ⟨j, p, hj, hk⟩
        exact ⟨j + 1, p, by simpa using hj, by omega⟩
      · rintro ⟨j, p, hj, hk⟩
        cases j with
        | zero => simp at hj
        | succ j' =>
          exact ⟨j', p, by simpa using hj, by omega⟩
    | some p0 =>
      rw [placePanels]
      simp only [List.mem_cons]
      constructor
      · rintro (heq | heq | hmem)
        · have : k = start := slotBorder_inj heq
          exact ⟨0, p0, rfl, by omega⟩
        · cases heq
        · obtain ⟨j, p, hj, hk⟩ := (ih (start + 1)).mp hmem
          exact ⟨j + 1, p, by simpa using hj, by omega⟩
      · rintro ⟨j, p, hj, hk⟩
        cases j with
        | zero =>
          injection hj with hj
          left
          subst hk
          simp [slotBorder, cellX, cellY]
        | succ j' =>
          right; right
          exact (ih (start + 1)).mpr ⟨j', p, by simpa using hj, by omega⟩

/-- C1 (counterexample to the claim as stated): with slot 0 absent and slot 1
present, the compositor draws no border rectangle at slot 0's geometric
position, while slot 1 gets one. -/
theorem absent_slot_has_no_border :
    slotBorder 0 ∉ (compose_comic_strip
      [none, some (.decoded [1]), some (.decoded [2]), some (.decoded [3]),
        some (.decoded [4]), some (.decoded [5])] "d".data).ops ∧
    slotBorder 1 ∈ (compose_comic_strip
      [none, some (.decoded [1]), some (.decoded [2]), some (.decoded [3]),
        some (.decoded [4]), some (.decoded [5])] "d".data).ops := by
  decide

/-- C1 (amended): the compositor draws the border rectangle at slot `i`'s
geometric position (column `i % COLS`, row `i / COLS`) exactly when slot `i`
holds an image; absent slots get no border, only the background fill. -/
theorem border_iff_slot_present (panels : List (Option Img))
    (date_str : List Char) (i : Nat) (h : i < panels.length) :
    slotBorder i ∈ (compose_comic_strip panels date_str).ops ↔
      ∃ p, panels.get ⟨i, h⟩ = some p := by
  have hops : (compose_comic_strip panels date_str).ops
      = DrawOp.text MARGIN MARGIN "AI THINGS CONSIDERED".data TEXT_COLOR
        :: DrawOp.text MARGIN (MARGIN + 55) date_str TEXT_COLOR
        :: placePanels panels 0 := rfl
  rw [hops]
  simp only [List.mem_cons]
  constructor
  · rintro (heq | heq | hmem)
    · cases heq
    · cases heq
    · obtain ⟨j, p, hj, hk⟩ := (slotBorder_mem_placePanels panels 0 i).mp hmem
      have hji : j = i := by omega
      subst hji
      rw [List.get?_eq_get h] at hj
      injection hj with hj
      exact ⟨p, hj⟩
  · rintro ⟨p, hp⟩
    right; right
    refine (slotBorder_mem_placePanels panels 0 i).mpr ⟨i, p, ?_, by omega⟩
    rw [List.get?_eq_get h, hp]

/-- C1 witness (for the amended theorem): in a strip with slot 0 present,
slot 0's border is drawn. -/
theorem border_iff_slot_present_witness :
    slotBorder 0 ∈ (compose_comic_strip [some (.decoded [9]), none] "d".data).ops :=
  (border_iff_slot_present [some (.decoded [9]), none] "d".data 0 (by decide)).mpr
    ⟨.decoded [9], rfl⟩

/-- C6: the canvas dimensions equal `margin*2 + cols*cellW + (cols-1)*gutter`
by `margin*2 + headerHeight + rows*cellH + (rows-1)*gutter` — fixed constants
(1284 × 1372) — and are identical for every panel subset and date string. -/
theorem canvas_dimensions_fixed (panels : List (Option Img))
    (date_str : List Char) :
    (compose_comic_strip panels date_str).width
        = MARGIN * 2 + COLS * PANEL_WIDTH + (COLS - 1) * GUTTER ∧
    (compose_comic_strip panels date_str).height
        = MARGIN * 2 + HEADER_HEIGHT + ROWS * PANEL_HEIGHT + (ROWS - 1) * GUTTER ∧
    (compose_comic_strip panels date_str).width = 1284 ∧
    (compose_comic_strip panels date_str).height = 1372 ∧
    ∀ (panels' : List (Option Img)) (date_str' : List Char),
      (compose_comic_strip panels' date_str').width
          = (compose_comic_strip panels date_str).width ∧
      (compose_comic_strip panels' date_str').height
          = (compose_comic_strip panels date_str).height :=
  ⟨rfl, rfl, rfl, rfl, fun _ _ => ⟨rfl, rfl⟩⟩

theorem countDate_pos_iff (a : Archive) (d : List Char) :
    0 < countDate a d ↔ d ∈ a.comics.map (fun c => c.date) := by
  rw [countDate, List.countP_pos_iff]
  constructor
  · rintro ⟨c, hc, hd⟩
    exact List.mem_map.mpr ⟨c, hc, by simpa using hd⟩
  · intro hm
    obtain ⟨c, hc, hd⟩ := List.mem_map.mp hm
    exact ⟨c, hc, by simp [hd]⟩

/-- C7 (counterexample to the claim as stated): starting from an archive
document that already holds two entries for a date, applying the update twice
with that date leaves two entries, not exactly one. -/
theorem archive_dedup_counterexample :
    countDate (update_archive (update_archive
        ⟨[⟨"2026-10-11".data, "a.jpg".data⟩, ⟨"2026-10-11".data, "b.jpg".data⟩]⟩
        "2026-10-11".data) "2026-10-11".data) "2026-10-11".data ≠ 1 := by
  decide

/-- C7 (amended): for every archive state holding at most one entry for the
date — the invariant the update itself maintains — applying the update twice
with that date leaves exactly one entry for it, the second application is a
no-op, and a newly added date's entry is inserted at the front. -/
theorem archive_dedup (a : Archive) (d : List Char) (h : countDate a d ≤ 1) :
    countDate (update_archive (update_archive a d) d) d = 1 ∧
    update_archive (update_archive a d) d = update_archive a d ∧
    (countDate a d = 0 →
      (update_archive a d).comics = ⟨d, d ++ ".jpg".data⟩ :: a.comics) := by
  by_cases hm : d ∈ a.comics.map (fun c => c.date)
  · have h1 : update_archive a d = a := by
      rw [update_archive]; simp [hm]
    have hpos : 0 < countDate a d := (countDate_pos_iff a d).mpr hm
    rw [h1, h1]
    exact ⟨by omega, rfl, fun h0 => absurd h0 (by omega)⟩
  · have h1 : update_archive a d = ⟨⟨d, d ++ ".jpg".data⟩ :: a.comics⟩ := by
      rw [update_archive]; simp only [if_neg hm]
    have hm2 : d ∈ (update_archive a d).comics.map (fun c => c.date) := by
      rw [h1]; simp
    have h2 : update_archive (update_archive a d) d = update_archive a d := by
      rw [update_archive]; simp [hm2]
    have hz : a.comics.countP (fun c => c.date == d) = 0 := by
      rw [List.countP_eq_zero]
      intro c hc
      simp only [beq_iff_eq]
      intro hd
      exact hm (List.mem_map.mpr ⟨c, hc, hd⟩)
    refine ⟨?_, h2, fun _ => by rw [h1]⟩
    rw [h2, countDate, h1]
    simp [List.countP_cons, hz]

/-- C7 witness: adding a fresh date to a one-entry archive and re-running
leaves exactly one entry for it, at the front. -/
theorem archive_dedup_witness :
    countDate (update_archive (update_archive
        ⟨[⟨"2026-10-10".data, "2026-10-10.jpg".data⟩]⟩ "2026-10-11".data)
        "2026-10-11".data) "2026-10-11".data = 1 ∧
    (update_archive ⟨[⟨"2026-10-10".data, "2026-10-10.jpg".data⟩]⟩
        "2026-10-11".data).comics
      = ⟨"2026-10-11".data, "2026-10-11".data ++ ".jpg".data⟩
        :: [⟨"2026-10-10".data, "2026-10-10.jpg".data⟩] := by
  have h := archive_dedup ⟨[⟨"2026-10-10".data, "2026-10-10.jpg".data⟩]⟩
    "2026-10-11".data (by decide)
  exact ⟨h.1, h.2.2 (by decide)⟩

theorem selectByIndices_length (stories : List Story) (idxs : List Nat)
    (l : List Story) (h : selectByIndices stories idxs = .ok l) :
    l.length = idxs.length := by
  induction idxs generalizing l with
  | nil =>
    rw [selectByIndices] at h
    injection h with h
    rw [← h]
    rfl
  | cons i rest ih =>
    rw [selectByIndices] at h
    cases hp : pyIndexPred stories i with
    | error e => rw [hp] at h; cases h
    | ok s =>
      rw [hp] at h
      cases hs : selectByIndices stories rest with
      | error e => rw [hs] at h; cases h
      | ok ss =>
        rw [hs] at h
        injection h with h
        rw [← h, List.length_cons, ih ss hs]
        rfl

/-- C4 (counterexample to the claim as stated): a response from which only
one valid index is extracted (fewer than `NUM_PANELS`) does not fall back to
the first `NUM_PANELS` stories — it returns a single story. -/
theorem selector_short_no_fallback :
    select_stories
      [⟨"a".data, [], [], []⟩, ⟨"b".data, [], [], []⟩, ⟨"c".data, [], [], []⟩,
        ⟨"d".data, [], [], []⟩, ⟨"e".data, [], [], []⟩, ⟨"f".data, [], [], []⟩]
      "[1]".data = .ok [⟨"a".data, [], [], []⟩] ∧
    (.ok [⟨"a".data, [], [], []⟩] : Except SelErr (List Story)) ≠
      .ok (([⟨"a".data, [], [], []⟩, ⟨"b".data, [], [], []⟩, ⟨"c".data, [], [], []⟩,
        ⟨"d".data, [], [], []⟩, ⟨"e".data, [], [], []⟩,
        ⟨"f".data, [], [], []⟩] : List Story).take NUM_PANELS) := by
  refine ⟨rfl, ?_⟩
  intro h
  injection h with h
  simp [NUM_PANELS] at h

/-- C4 (amended): when no integer-array substring is found in the stripped
response, the selector falls back to the first `NUM_PANELS` stories; but when
one is found and parses, the selector returns one story per parsed index
(capped at `NUM_PANELS`) with no fallback, so a successful selection has
length `min NUM_PANELS indices.length` — exactly `NUM_PANELS` only when at
least `NUM_PANELS` indices were extracted. -/
theorem selector_fallback_behavior (stories : List Story) (text : List Char)
    (l : List Story) (h : select_stories stories text = .ok l) :
    (findIntArray (pyStrip text) = none → l = stories.take NUM_PANELS) ∧
    (∀ sub indices, findIntArray (pyStrip text) = some sub →
      jsonLoadsNatArray sub = some indices →
      l.length = min NUM_PANELS indices.length) := by
  constructor
  · intro h0
    simp only [select_stories, h0] at h
    injection h with h
    exact h.symm
  · intro sub indices hsub hind
    simp only [select_stories, hsub, hind] at h
    have := selectByIndices_length stories (indices.take NUM_PANELS) l h
    rw [this, List.length_take]

/-- C4 witness (for the amended theorem): a malformed response falls back to
the first stories in order, and a parsed two-index response yields exactly
two stories. -/
theorem selector_fallback_behavior_witness :
    ([⟨"a".data, [], [], []⟩, ⟨"b".data, [], [], []⟩] : List Story)
      = ([⟨"a".data, [], [], []⟩, ⟨"b".data, [], [], []⟩] : List Story).take NUM_PANELS ∧
    (([⟨"b".data, [], [], []⟩, ⟨"a".data, [], [], []⟩] : List Story).length
      = min NUM_PANELS ([2, 1] : List Nat).length) := by
  have h1 := selector_fallback_behavior
    [⟨"a".data, [], [], []⟩, ⟨"b".data, [], [], []⟩] "no array here".data
    [⟨"a".data, [], [], []⟩, ⟨"b".data, [], [], []⟩] rfl
  have h2 := selector_fallback_behavior
    [⟨"a".data, [], [], []⟩, ⟨"b".data, [], [], []⟩, ⟨"c".data, [], [], []⟩]
    "pick [2, 1]".data
    [⟨"b".data, [], [], []⟩, ⟨"a".data, [], [], []⟩] rfl
  exact ⟨h1.1 rfl, h2.2 "[2, 1]".data [2, 1] rfl rfl⟩

/-- C2: the run raises past panel generation exactly when fewer than
`MIN_PANELS_REQUIRED` panels succeeded (persisting no artifacts), and
otherwise persists the dated full-resolution strip, the web strip, the dated
metadata, the latest pointer, and the archive update. -/
theorem min_panels_gate (panels : List (Option Img)) (stories : List Story)
    (today today_display : List Char) (archive0 : Archive) :
    ((∃ e, finalizeRun panels stories today today_display archive0 = .error e)
      ↔ (panels.filter (fun p => p.isSome)).length < MIN_PANELS_REQUIRED) ∧
    (MIN_PANELS_REQUIRED ≤ (panels.filter (fun p => p.isSome)).length →
      finalizeRun panels stories today today_display archive0 = .ok
        { fullres_png :=
            (today ++ ".png".data, compose_comic_strip panels today_display)
          web_jpg := (today ++ ".jpg".data,
            optimize_for_web (compose_comic_strip panels today_display))
          dated_json := (today ++ ".json".data, save_metadata stories today)
          latest_json := save_metadata stories today
          archive := update_archive archive0 today }) := by
  by_cases hlt :
      (panels.filter (fun p => p.isSome)).length < MIN_PANELS_REQUIRED
  · constructor
    · simp only [hlt, iff_true]
      have he : finalizeRun panels stories today today_display archive0
          = .error ("Only ".data
            ++ (Nat.repr (panels.filter (fun p => p.isSome)).length).data
            ++ "/".data ++ (Nat.repr NUM_PANELS).data
            ++ " panels generated. Minimum required: ".data
            ++ (Nat.repr MIN_PANELS_REQUIRED).data ++ ". Aborting.".data) := by
        simp only [finalizeRun, if_pos hlt]
      exact ⟨_, he⟩
    · intro hge; omega
  · constructor
    · simp only [hlt, iff_false]
      rintro ⟨e, he⟩
      rw [finalizeRun] at he
      simp only [if_neg hlt] at he
      cases he
    · intro _
      rw [finalizeRun]
      simp only [if_neg hlt]

/-- C2 witness: with exactly `MIN_PANELS_REQUIRED` successful panels the run
persists the artifacts. -/
theorem min_panels_gate_witness :
    finalizeRun [some (.decoded [1]), some (.decoded [2]), some (.decoded [3]),
        some (.decoded [4]), none, none] [] "d".data "D".data ⟨[]⟩
      = .ok
        { fullres_png := ("d".data ++ ".png".data,
            compose_comic_strip [some (.decoded [1]), some (.decoded [2]),
              some (.decoded [3]), some (.decoded [4]), none, none] "D".data)
          web_jpg := ("d".data ++ ".jpg".data,
            optimize_for_web (compose_comic_strip [some (.decoded [1]),
              some (.decoded [2]), some (.decoded [3]), some (.decoded [4]),
              none, none] "D".data))
          dated_json := ("d".data ++ ".json".data, save_metadata [] "d".data)
          latest_json := save_metadata [] "d".data
          archive := update_archive ⟨[]⟩ "d".data } :=
  (min_panels_gate [some (.decoded [1]), some (.decoded [2]), some (.decoded [3]),
    some (.decoded [4]), none, none] [] "d".data "D".data ⟨[]⟩).2 (by decide)

theorem storyEntries_length (i : Nat) (stories : List Story) :
    (storyEntries i stories).length = stories.length := by
  induction stories generalizing i with
  | nil => rfl
  | cons s rest ih => simp [storyEntries, ih]

theorem storyEntries_get? (i j : Nat) (stories : List Story) :
    (storyEntries i stories).get? j = (stories.get? j).map
      (fun s => ⟨i + j + 1, s.title, s.description, s.link⟩) := by
  induction stories generalizing i j with
  | nil => simp [storyEntries]
  | cons s rest ih =>
    cases j with
    | zero => simp [storyEntries]
    | succ j' =>
      rw [storyEntries]
      simp only [List.get?_cons_succ, ih (i + 1) j']
      simp only [show ∀ j' : Nat, i + 1 + j' = i + (j' + 1) from fun _ => by omega]

/-- C10: every run past the gate persists, in both the dated and the latest
metadata, one entry per selected story whose `panel` is its 1-based position
in selection order with the story's title, summary and source URL — all
independent of which panel images succeeded. -/
theorem metadata_entries (panels : List (Option Img)) (stories : List Story)
    (today today_display : List Char) (archive0 : Archive)
    (arts : RunArtifacts)
    (h : finalizeRun panels stories today today_display archive0 = .ok arts) :
    arts.dated_json.2 = save_metadata stories today ∧
    arts.latest_json = save_metadata stories today ∧
    (save_metadata stories today).stories.length = stories.length ∧
    (∀ i, i < stories.length →
      (save_metadata stories today).stories.get? i = (stories.get? i).map
        (fun s => ⟨i + 1, s.title, s.description, s.link⟩)) ∧
    (∀ (panels' : List (Option Img)) (arts' : RunArtifacts),
      finalizeRun panels' stories today today_display archive0 = .ok arts' →
      arts'.dated_json = arts.dated_json ∧
      arts'.latest_json = arts.latest_json) := by
  have hfields : ∀ (ps : List (Option Img)) (a : RunArtifacts),
      finalizeRun ps stories today today_display archive0 = .ok a →
      a.dated_json = (today ++ ".json".data, save_metadata stories today) ∧
      a.latest_json = save_metadata stories today := by
    intro ps a ha
    rw [finalizeRun] at ha
    by_cases hlt : (ps.filter (fun p => p.isSome)).length < MIN_PANELS_REQUIRED
    · simp only [if_pos hlt] at ha; cases ha
    · simp only [if_neg hlt] at ha
      injection ha with ha
      rw [← ha]
      exact ⟨rfl, rfl⟩
  obtain ⟨hd, hl⟩ := hfields panels arts h
  refine ⟨by rw [hd], hl, storyEntries_length 0 stories, ?_, ?_⟩
  · intro i _
    have := storyEntries_get? 0 i stories
    simpa [save_metadata] using this
  · intro panels' arts' h'
    obtain ⟨hd', hl'⟩ := hfields panels' arts' h'
    rw [hd, hd', hl, hl']
    exact ⟨rfl, rfl⟩

/-- C10 witness: one selected story with a failed panel still yields the full
metadata entry at panel 1. -/
theorem metadata_entries_witness :
    (save_metadata [⟨"t".data, "s".data, "u".data, "p".data⟩] "d".data).stories.get? 0
      = some ⟨1, "t".data, "s".data, "u".data⟩ ∧
    (save_metadata [⟨"t".data, "s".data, "u".data, "p".data⟩] "d".data).stories.length
      = 1 := by
  have h := metadata_entries
    [some (.decoded [1]), some (.decoded [2]), some (.decoded [3]),
      some (.decoded [4]), none, none]
    [⟨"t".data, "s".data, "u".data, "p".data⟩] "d".data "D".data ⟨[]⟩
    { fullres_png := ("d".data ++ ".png".data,
        compose_comic_strip [some (.decoded [1]), some (.decoded [2]),
          some (.decoded [3]), some (.decoded [4]), none, none] "D".data)
      web_jpg := ("d".data ++ ".jpg".data,
        optimize_for_web (compose_comic_strip [some (.decoded [1]),
          some (.decoded [2]), some (.decoded [3]), some (.decoded [4]),
          none, none] "D".data))
      dated_json := ("d".data ++ ".json".data,
        save_metadata [⟨"t".data, "s".data, "u".data, "p".data⟩] "d".data)
      latest_json := save_metadata [⟨"t".data, "s".data, "u".data, "p".data⟩] "d".data
      archive := update_archive ⟨[]⟩ "d".data } rfl
  refine ⟨?_, h.2.2.1⟩
  rw [h.2.2.2.1 0 (by decide)]
  rfl

end AIThingsConsidered
